import Mathlib

/-!
# rjob: a fiber based job system (src/rjob.cpp)

Shallow embedding of the lifecycle functions, the fiber trampoline and the
scheduler loop of `rjob.cpp`.

* The `JobSystem` singleton is a record; its fixed size arrays are total maps
  from the index to the element (the content of the memory at that index).
* Everything a function does that is visible from outside is appended to a
  trace of `Event`s: accesses to the two `volatile` fields, calls into the
  platform layer (`Platform::...`, declared in the absent `rjob_platform.h`)
  and calls of a job's entry function.
* What the platform returns, what other threads and fibers did to the shared
  memory by the time a call returns, and what an uninitialised local holds
  are given by an environment `Env`, a parameter of every function.
* Loops that the source does not bound (`while`) take fuel.
-/

namespace Rjob

/-! ## Constants (rjob.cpp lines 6-10) -/

def workerThreadCount : Nat := 8
def maxFibers : Nat := 512
def maxJobsPerQueue : Nat := 2048
def jobStackSize : Nat := 32 * 1024
def schedulerStackSize : Nat := 1 * 1024

/-- Conversion of a value to `uint32`. -/
def u32 (n : Nat) : Nat := n % 2 ^ 32

/-! ## Data model (rjob.cpp lines 12-59) -/

/-- `struct Job`. The field `fiber` is a `JobFiber*`: `none` is `nullptr`,
`some i` is the address of `fiberPool[i]`; `entryFn` and `user` are addresses. -/
structure Job where
  fiber : Option Nat
  entryFn : Nat
  user : Nat
deriving DecidableEq, Repr

/-- `struct RunQueue`: `Job jobs[maxJobsPerQueue]`, and nothing else. -/
structure RunQueue where
  jobs : Nat → Job

/-- `struct WaitingJob`; `JobPriority` and `JobCounter` come from the absent
`rjob.h` and are kept as numbers. -/
structure WaitingJob where
  job : Job
  priority : Nat
  waitCounter : Nat

/-- `struct WaitQueue`. -/
structure WaitQueue where
  jobs : Nat → WaitingJob

/-- `struct JobFiber`; `Platform::Fiber` is a handle. -/
structure JobFiber where
  fiber : Nat
  runningJob : Job

/-- `struct JobSystem`; `runningWorkers` is a `uint32`. -/
structure JobSystem where
  runQueues : Nat → RunQueue
  waitQueue : WaitQueue
  workerThreads : Nat → Nat
  schedulerFibers : Nat → Nat
  fiberPool : Nat → JobFiber
  running : Bool
  runningWorkers : Nat

/-- The memory a thread sees: the object `jobSystem` points to and the
thread local `gCurrentThreadIdx` of the thread that is executing. -/
structure Mem where
  jobSystem : JobSystem
  gCurrentThreadIdx : Nat

/-- The functions of rjob.cpp whose address is handed to the platform. -/
inductive EntryPoint where
  | FiberThread
  | ScheduleWork
  | WorkerStartup
deriving DecidableEq, Repr

/-- What a function does that is visible from outside, in program order. -/
inductive Event where
  | writeRunning (value : Bool)
  | readRunning (value : Bool)
  | readRunningWorkers (value : Nat)
  | CreateFiber (entry : EntryPoint) (arg stackSize : Nat)
  | DestroyFiber (fiber : Nat)
  | SwitchToFiber (fiber : Nat)
  | BeginFiber (entry : EntryPoint) (arg : Nat)
  | LaunchThread (entry : EntryPoint) (arg stackSize coreMask : Nat)
  | CurrentThread
  | SetThreadAffinity (thread coreMask : Nat)
  | AtomicIncrement32
  | AtomicDecrement32
  | Yield
  | jobEntry (entryFn user : Nat)
deriving DecidableEq, Repr

/-- The events that are calls of a `Platform::` function. -/
def Event.isPlatformCall : Event → Bool
  | .writeRunning _ => false
  | .readRunning _ => false
  | .readRunningWorkers _ => false
  | .jobEntry _ _ => false
  | _ => true

/-- The environment of the executing thread. Each function is given the trace
up to and including the call it answers. -/
structure Env where
  /-- The handle the call returns. -/
  ret : List Event → Nat
  /-- The memory as the thread finds it when the call returns: the writes of
  other threads, fibers and jobs in the meantime. -/
  interfere : List Event → Mem → Mem
  /-- The content of a local `Job` that is declared without initialiser. -/
  indeterminate : List Event → Job

/-- An environment in which nobody else writes to the handles that
`Initialize` and `Startup` store (`fiberPool[i].fiber`, `workerThreads[i]`). -/
def Env.KeepsHandles (E : Env) : Prop :=
  ∀ t m, (E.interfere t m).jobSystem.workerThreads = m.jobSystem.workerThreads ∧
    ∀ i, ((E.interfere t m).jobSystem.fiberPool i).fiber = (m.jobSystem.fiberPool i).fiber

/-- An environment in which the executing thread is alone: no interference. -/
def Env.Alone (E : Env) : Prop := ∀ t m, E.interfere t m = m

structure World where
  mem : Mem
  trace : List Event

/-- How a function ended. `fault` is an access through a pointer that is null
or through a pointer or index that leaves the array it is meant for;
`outOfFuel` is "still running". -/
inductive Outcome where
  | returned (w : World)
  | fault (w : World)
  | outOfFuel (w : World)

def Outcome.world : Outcome → World
  | .returned w => w
  | .fault w => w
  | .outOfFuel w => w

def Outcome.isReturned : Outcome → Bool
  | .returned _ => true
  | _ => false

def Outcome.isOutOfFuel : Outcome → Bool
  | .outOfFuel _ => true
  | _ => false

def Outcome.isFault : Outcome → Bool
  | .fault _ => true
  | _ => false

/-! ## Memory accesses -/

def World.emit (w : World) (e : Event) : World :=
  { w with trace := w.trace ++ [e] }

def World.modify (w : World) (f : JobSystem → JobSystem) : World :=
  { w with mem := { w.mem with jobSystem := f w.mem.jobSystem } }

/-- A call that leaves the thread: the event, then the memory as found on
return; the second component is the value returned. -/
def World.call (E : Env) (e : Event) (w : World) : World × Nat :=
  let t := w.trace ++ [e]
  ({ mem := E.interfere t w.mem, trace := t }, E.ret t)

/-- Read of `jobSystem->running` (volatile). -/
def World.readRunning (w : World) : World × Bool :=
  (w.emit (.readRunning w.mem.jobSystem.running), w.mem.jobSystem.running)

/-- Write of `jobSystem->running` (volatile). -/
def World.writeRunning (w : World) (b : Bool) : World :=
  (w.modify fun js => { js with running := b }).emit (.writeRunning b)

/-- Read of `jobSystem->runningWorkers` (volatile). -/
def World.readRunningWorkers (w : World) : World × Nat :=
  (w.emit (.readRunningWorkers w.mem.jobSystem.runningWorkers), w.mem.jobSystem.runningWorkers)

/-- Store `jobSystem->fiberPool[i].fiber = h`. -/
def World.setFiber (w : World) (i h : Nat) : World :=
  w.modify fun js => { js with
    fiberPool := Function.update js.fiberPool i { js.fiberPool i with fiber := h } }

/-- Store `jobSystem->fiberPool[i].runningJob = job`. -/
def World.setRunningJob (w : World) (i : Nat) (job : Job) : World :=
  w.modify fun js => { js with
    fiberPool := Function.update js.fiberPool i { js.fiberPool i with runningJob := job } }

/-- Store `jobSystem->workerThreads[i] = h`. -/
def World.setWorkerThread (w : World) (i h : Nat) : World :=
  w.modify fun js => { js with workerThreads := Function.update js.workerThreads i h }

/-- Store `jobSystem->schedulerFibers[i] = h`. -/
def World.setSchedulerFiber (w : World) (i h : Nat) : World :=
  w.modify fun js => { js with schedulerFibers := Function.update js.schedulerFibers i h }

/-- Modelled from the spec: `Platform::AtomicIncrement32` (rjob_platform.h is
absent), the atomic increment of the platform shim, here of
`jobSystem->runningWorkers`. -/
def AtomicIncrement32 (E : Env) (w : World) : World :=
  (World.call E .AtomicIncrement32
    (w.modify fun js => { js with runningWorkers := u32 (js.runningWorkers + 1) })).1

/-- Modelled from the spec: `Platform::AtomicDecrement32` (rjob_platform.h is
absent), the atomic decrement of the platform shim, here of
`jobSystem->runningWorkers`. -/
def AtomicDecrement32 (E : Env) (w : World) : World :=
  (World.call E .AtomicDecrement32
    (w.modify fun js => { js with runningWorkers := u32 (js.runningWorkers + 2 ^ 32 - 1) })).1

/-- The loop `for (; i < n; i++) body(i);`. -/
def forLoop (n : Nat) (body : Nat → World → World) (i : Nat) (w : World) : World :=
  if i < n then forLoop n body (i + 1) (body i w) else w
termination_by n - i

/-! ## The functions of rjob.cpp -/

/-- `rjob::GetCurrentThreadIndex` (lines 142-145). -/
def GetCurrentThreadIndex (w : World) : Nat := w.mem.gCurrentThreadIdx

/-- `FiberThread` (lines 61-70): `while(true)`, one unit of fuel an iteration.
Nothing in the source checks `fiberIdx`, the entry function or the thread
index: a `fiberIdx` outside `fiberPool`, a call through a null `entryFn` and
a thread index outside `schedulerFibers` are faults. -/
def FiberThread (E : Env) (fiberIdx : Nat) : Nat → World → Outcome
  | 0, w => .outOfFuel w
  | fuel + 1, w =>
    if fiberIdx < maxFibers then
      let job := (w.mem.jobSystem.fiberPool fiberIdx).runningJob
      if job.entryFn = 0 then .fault w
      else
        let w := (World.call E (.jobEntry job.entryFn job.user) w).1
        let t := GetCurrentThreadIndex w
        if t < workerThreadCount then
          let w := (World.call E (.SwitchToFiber (w.mem.jobSystem.schedulerFibers t)) w).1
          FiberThread E fiberIdx fuel w
        else .fault w
    else .fault w

/-- `ScheduleWork` (lines 74-88), one unit of fuel an iteration. The local
`job` has no initialiser and nothing is assigned to it; the body of
`if(fiber == nullptr)` is empty. -/
def ScheduleWork (E : Env) (threadIdx : Nat) : Nat → World → Outcome
  | 0, w => .outOfFuel w
  | fuel + 1, w =>
    let r := w.readRunning
    let w := r.1
    if r.2 then
      let job := E.indeterminate w.trace
      let fiber := job.fiber
      match fiber with
      | none => .fault w
      | some i =>
        if i < maxFibers then
          let w := w.setRunningJob i job
          let w := (World.call E (.SwitchToFiber (w.mem.jobSystem.fiberPool i).fiber) w).1
          ScheduleWork E threadIdx fuel w
        else .fault w
    else .returned w

/-- Modelled from the spec: `Platform::BeginFiber` (rjob_platform.h is absent).
The calling thread "converts itself into a scheduler execution context and
enters the Scheduler Loop": the call runs `ScheduleWork(arg)` on the calling
thread and gives back the handle of the context when the loop has returned. -/
def BeginFiber (E : Env) (arg fuel : Nat) (w : World) : Outcome × Nat :=
  let c := World.call E (.BeginFiber .ScheduleWork arg) w
  (ScheduleWork E arg fuel c.1, c.2)

/-- `WorkerStartup` (lines 90-96). -/
def WorkerStartup (E : Env) (threadIdx fuel : Nat) (w : World) : Outcome :=
  let w := { w with mem := { w.mem with gCurrentThreadIdx := u32 threadIdx } }
  let w := AtomicIncrement32 E w
  let b := BeginFiber E threadIdx fuel w
  match b.1 with
  | .returned w =>
    let w := w.setSchedulerFiber threadIdx b.2
    .returned (AtomicDecrement32 E w)
  | o => o

/-- `rjob::Initialize` (lines 100-105); `memory` is the content of the buffer,
read as a `JobSystem`. -/
def Initialize (E : Env) (memory : JobSystem) (w : World) : World :=
  let w := w.modify fun _ => memory
  forLoop maxFibers (fun i w =>
    let c := World.call E (.CreateFiber .FiberThread i jobStackSize) w
    c.1.setFiber i c.2) 0 w

/-- `rjob::Deinitialize` (lines 107-114), one unit of fuel for each test of
the `while` condition. -/
def Deinitialize (E : Env) : Nat → World → Outcome
  | 0, w => .outOfFuel w
  | fuel + 1, w =>
    let r := w.readRunningWorkers
    if r.2 ≠ 0 then
      Deinitialize E fuel (World.call E .Yield r.1).1
    else
      .returned (forLoop maxFibers (fun i w =>
        (World.call E (.DestroyFiber (w.mem.jobSystem.fiberPool i).fiber) w).1) 0 r.1)

/-- `rjob::Startup` (lines 116-135). -/
def Startup (E : Env) (consumeCurrentThread : Bool) (fuel : Nat) (w : World) : Outcome :=
  let w := w.writeRunning true
  let i := 0
  let i := if consumeCurrentThread then i + 1 else i
  let w := forLoop workerThreadCount (fun i w =>
    let coreMask := u32 (0x01 <<< i)
    let c := World.call E (.LaunchThread .WorkerStartup i schedulerStackSize coreMask) w
    c.1.setWorkerThread i c.2) i w
  if consumeCurrentThread then
    let c := World.call E .CurrentThread w
    let w := c.1.setWorkerThread 0 c.2
    let w := (World.call E (.SetThreadAffinity (w.mem.jobSystem.workerThreads 0) 0x01) w).1
    WorkerStartup E 0 fuel w
  else .returned w

/-- `rjob::Shutdown` (lines 137-140). -/
def Shutdown (w : World) : World :=
  w.writeRunning false

/-! ## States along the loops -/

/-- The state of a fiber that starts an iteration of `FiberThread` in `w`, at
the moment its job has returned. -/
def fiberAfterJob (E : Env) (fiberIdx : Nat) (w : World) : World :=
  (World.call E
    (.jobEntry (w.mem.jobSystem.fiberPool fiberIdx).runningJob.entryFn
      (w.mem.jobSystem.fiberPool fiberIdx).runningJob.user) w).1

/-- The state of a fiber that starts an iteration of `FiberThread` in `w`, at
the moment the switch to the scheduler fiber has returned. -/
def fiberAfterSwitch (E : Env) (fiberIdx : Nat) (w : World) : World :=
  (World.call E
    (.SwitchToFiber ((fiberAfterJob E fiberIdx w).mem.jobSystem.schedulerFibers
      (GetCurrentThreadIndex (fiberAfterJob E fiberIdx w))))
    (fiberAfterJob E fiberIdx w)).1

/-- One round of the wait loop of `Deinitialize` from `w`: the live worker
count is read and `Yield` is called. -/
def waitRound (E : Env) (w : World) : World :=
  (World.call E .Yield (w.emit (.readRunningWorkers w.mem.jobSystem.runningWorkers))).1

/-- The state after the first `i` rounds of the destroy loop of
`Deinitialize`, entered in `w`. -/
def destroyed (E : Env) (w : World) : Nat → World
  | 0 => w
  | i + 1 =>
    (World.call E (.DestroyFiber ((destroyed E w i).mem.jobSystem.fiberPool i).fiber)
      (destroyed E w i)).1

/-! ## Environments used as concrete inputs -/

/-- Nobody else runs: calls return the length of the trace as handle, the
memory is found as it was left, an uninitialised `Job` is all zero. -/
def quietEnv : Env where
  ret := fun t => t.length
  interfere := fun _ m => m
  indeterminate := fun _ => { fiber := none, entryFn := 0, user := 0 }

/-- A job that is all zero. -/
def zeroJob : Job := { fiber := none, entryFn := 0, user := 0 }

/-- A buffer that is all zero. -/
def zeroBuffer : JobSystem where
  runQueues := fun _ => { jobs := fun _ => zeroJob }
  waitQueue := { jobs := fun _ => { job := zeroJob, priority := 0, waitCounter := 0 } }
  workerThreads := fun _ => 0
  schedulerFibers := fun _ => 0
  fiberPool := fun _ => { fiber := 0, runningJob := zeroJob }
  running := false
  runningWorkers := 0

/-- The state of a thread before anything happened, over a given buffer. -/
def startWorld (js : JobSystem) : World where
  mem := { jobSystem := js, gCurrentThreadIdx := 0 }
  trace := []

/-- Another thread calls `Shutdown` while the executing thread is in a call:
the running flag is found cleared. -/
def shutdownEnv : Env where
  ret := fun t => t.length
  interfere := fun _ m => { m with jobSystem := { m.jobSystem with running := false } }
  indeterminate := fun _ => zeroJob

/-- A worker leaves while the executing thread is in a call: the live worker
count is found one lower. -/
def drainingEnv : Env where
  ret := fun t => t.length
  interfere := fun _ m =>
    { m with jobSystem := { m.jobSystem with runningWorkers := m.jobSystem.runningWorkers - 1 } }
  indeterminate := fun _ => zeroJob

/-- The fiber is taken over by another worker thread while it is in a call:
the thread index found is half the length of the trace, modulo 8. -/
def migratingEnv : Env where
  ret := fun t => t.length
  interfere := fun t m => { m with gCurrentThreadIdx := t.length / 2 % 8 }
  indeterminate := fun _ => zeroJob

/-- What an uninitialised local `Job` may hold: a pointer to `fiberPool[3]`
and some entry function and user pointer. -/
def strayJob : Job := { fiber := some 3, entryFn := 777, user := 5 }

/-- Nobody else runs, and an uninitialised `Job` holds `strayJob`. -/
def strayEnv : Env where
  ret := fun t => t.length
  interfere := fun _ m => m
  indeterminate := fun _ => strayJob

/-- An uninitialised `Job` holds `strayJob`, and another thread calls
`Shutdown` while the executing thread is in a call. -/
def strayShutdownEnv : Env where
  ret := fun t => t.length
  interfere := fun _ m => { m with jobSystem := { m.jobSystem with running := false } }
  indeterminate := fun _ => strayJob

/-- A job as a caller submits it: no fiber bound yet. -/
def queuedJob : Job := { fiber := none, entryFn := 100, user := 1 }

/-- A running job system in which every slot of every run queue holds
`queuedJob`; scheduler fiber `i` has handle `100 + i`. -/
def queuedBuffer : JobSystem :=
  { zeroBuffer with
    runQueues := fun _ => { jobs := fun _ => queuedJob }
    schedulerFibers := fun i => 100 + i
    running := true }

/-- A running job system in which every fiber of the pool has the job
`queuedJob` installed; scheduler fiber `i` has handle `100 + i`. -/
def busyBuffer : JobSystem :=
  { zeroBuffer with
    schedulerFibers := fun i => 100 + i
    fiberPool := fun _ => { fiber := 0, runningJob := queuedJob }
    running := true }

/-- A buffer that is zero but for the bytes of `runningWorkers`, which hold 1. -/
def staleBuffer : JobSystem := { zeroBuffer with runningWorkers := 1 }

/-- A job system with two live workers. -/
def twoWorkers : JobSystem := { zeroBuffer with runningWorkers := 2 }

/-! ## Loops -/

theorem forLoop_eq_foldl (n : Nat) (body : Nat → World → World) :
    ∀ k i w, n - i = k →
      forLoop n body i w = (List.range' i k).foldl (fun w j => body j w) w := by
  intro k
  induction k with
  | zero =>
    intro i w h
    rw [forLoop, if_neg (by omega)]
    rfl
  | succ k ih =>
    intro i w h
    rw [forLoop, if_pos (by omega), ih (i + 1) (body i w) (by omega)]
    rfl

/-- The trace of a loop whose body appends one event. -/
theorem foldl_trace (body : Nat → World → World) (ev : Nat → Event)
    (hb : ∀ j w, (body j w).trace = w.trace ++ [ev j]) :
    ∀ (l : List Nat) (w : World),
      (l.foldl (fun w j => body j w) w).trace = w.trace ++ l.map ev := by
  intro l
  induction l with
  | nil => intro w; simp
  | cons a l ih => intro w; simp [ih, hb]

/-- A loop `for (; i < i + k; i++) slot[i] = call(ev i)`: with nobody else
writing the slots, slot `j` ends up holding what the call for `j` returned,
and the slots outside the range are as before. -/
theorem foldl_handles (E : Env) (ev : Nat → Event)
    (store : World → Nat → Nat → World) (get : Mem → Nat → Nat)
    (hst : ∀ w i h, (store w i h).trace = w.trace)
    (hsame : ∀ w i h, get (store w i h).mem i = h)
    (hother : ∀ w i h j, j ≠ i → get (store w i h).mem j = get w.mem j)
    (hkeep : ∀ t m j, get (E.interfere t m) j = get m j) :
    ∀ k i w,
      (∀ j, j < i →
        get ((List.range' i k).foldl
          (fun w j => store (World.call E (ev j) w).1 j (World.call E (ev j) w).2) w).mem j
          = get w.mem j) ∧
      (∀ j, i ≤ j → j < i + k →
        get ((List.range' i k).foldl
          (fun w j => store (World.call E (ev j) w).1 j (World.call E (ev j) w).2) w).mem j
          = E.ret (w.trace ++ (List.range' i (j - i + 1)).map ev)) := by
  intro k
  induction k with
  | zero =>
    intro i w
    refine ⟨fun j _ => rfl, fun j h1 h2 => ?_⟩
    omega
  | succ k ih =>
    intro i w
    have hstep : ∀ j, j ≠ i →
        get (store (World.call E (ev i) w).1 i (World.call E (ev i) w).2).mem j = get w.mem j := by
      intro j hj
      rw [hother _ _ _ _ hj]
      exact hkeep _ _ _
    obtain ⟨ih1, ih2⟩ := ih (i + 1) (store (World.call E (ev i) w).1 i (World.call E (ev i) w).2)
    refine ⟨fun j hj => ?_, fun j h1 h2 => ?_⟩
    · rw [List.range'_succ, List.foldl_cons, ih1 j (by omega)]
      exact hstep j (by omega)
    · rw [List.range'_succ, List.foldl_cons]
      rcases Nat.eq_or_lt_of_le h1 with h | h
      · subst h
        rw [ih1 i (by omega), hsame]
        simp [World.call, List.range']
      · rw [ih2 j (by omega) (by omega), hst]
        have : j - i + 1 = (j - (i + 1) + 1) + 1 := by omega
        rw [this, List.range'_succ i]
        simp [World.call]

/-- A loop keeps what every run of its body keeps. -/
theorem foldl_keeps {α : Type} (body : Nat → World → World) (f : World → α)
    (hb : ∀ j w, f (body j w) = f w) :
    ∀ (l : List Nat) (w : World), f (l.foldl (fun w j => body j w) w) = f w := by
  intro l
  induction l with
  | nil => intro w; rfl
  | cons a l ih => intro w; rw [List.foldl_cons, ih, hb]

theorem quietEnv_alone : quietEnv.Alone := fun _ _ => rfl

theorem Env.Alone.keepsHandles {E : Env} (h : E.Alone) : E.KeepsHandles := by
  intro t m
  rw [h t m]
  exact ⟨rfl, fun _ => rfl⟩

/-! ## Shutdown -/

/-- C6: `Shutdown()` writes `false` to the running flag and that is all: run
queues, wait queue, fiber pool, thread handles, scheduler fiber handles, the
live worker count and the thread index are as before, the only event is the
write of the flag (no platform call), and a second call leaves the memory
the first one left. -/
theorem Shutdown_only_clears_running (w : World) :
    (Shutdown w).mem.jobSystem.running = false ∧
    (Shutdown w).mem.jobSystem = { w.mem.jobSystem with running := false } ∧
    (Shutdown w).mem.jobSystem.runQueues = w.mem.jobSystem.runQueues ∧
    (Shutdown w).mem.jobSystem.waitQueue = w.mem.jobSystem.waitQueue ∧
    (Shutdown w).mem.jobSystem.fiberPool = w.mem.jobSystem.fiberPool ∧
    (Shutdown w).mem.jobSystem.workerThreads = w.mem.jobSystem.workerThreads ∧
    (Shutdown w).mem.jobSystem.schedulerFibers = w.mem.jobSystem.schedulerFibers ∧
    (Shutdown w).mem.jobSystem.runningWorkers = w.mem.jobSystem.runningWorkers ∧
    (Shutdown w).mem.gCurrentThreadIdx = w.mem.gCurrentThreadIdx ∧
    (Shutdown w).trace = w.trace ++ [Event.writeRunning false] ∧
    (Shutdown w).trace.filter Event.isPlatformCall = w.trace.filter Event.isPlatformCall ∧
    (Shutdown (Shutdown w)).mem = (Shutdown w).mem := by
  refine ⟨rfl, rfl, rfl, rfl, rfl, rfl, rfl, rfl, rfl, rfl, ?_, rfl⟩
  simp [Shutdown, World.writeRunning, World.emit, World.modify, Event.isPlatformCall]

/-! ## Initialize -/

theorem Initialize_eq_foldl (E : Env) (memory : JobSystem) (w : World) :
    Initialize E memory w
      = (List.range' 0 maxFibers).foldl
          (fun w j => World.setFiber (World.call E (.CreateFiber .FiberThread j 32768) w).1 j
            (World.call E (.CreateFiber .FiberThread j 32768) w).2)
          (w.modify fun _ => memory) := by
  unfold Initialize
  exact forLoop_eq_foldl _ _ maxFibers 0 _ rfl

/-- Under an environment that leaves the memory alone, `Initialize` keeps
whatever does not depend on the handles in the fiber pool. -/
theorem Initialize_keeps {α : Type} (E : Env) (hE : E.Alone) (f : JobSystem → α)
    (hf : ∀ js i h, f { js with
      fiberPool := Function.update js.fiberPool i { js.fiberPool i with fiber := h } } = f js)
    (memory : JobSystem) (w : World) :
    f (Initialize E memory w).mem.jobSystem = f memory := by
  rw [Initialize_eq_foldl]
  rw [foldl_keeps
    (fun j w => World.setFiber (World.call E (.CreateFiber .FiberThread j 32768) w).1 j
      (World.call E (.CreateFiber .FiberThread j 32768) w).2)
    (fun w => f w.mem.jobSystem)]
  · rfl
  · intro j w
    simp only [World.call, World.setFiber, World.modify, hE _ _]
    exact hf _ _ _

theorem Initialize_trace (E : Env) (memory : JobSystem) (w : World) :
    (Initialize E memory w).trace
      = w.trace ++ (List.range 512).map (fun i => Event.CreateFiber .FiberThread i 32768) := by
  rw [Initialize_eq_foldl, foldl_trace _ (fun i => Event.CreateFiber .FiberThread i 32768)]
  · rw [List.range_eq_range']
    rfl
  · intro j w
    rfl

theorem Initialize_handles (E : Env) (hE : E.KeepsHandles) (memory : JobSystem) (w : World)
    (i : Nat) (hi : i < 512) :
    ((Initialize E memory w).mem.jobSystem.fiberPool i).fiber
      = E.ret (w.trace ++
          (List.range (i + 1)).map (fun i => Event.CreateFiber .FiberThread i 32768)) := by
  rw [Initialize_eq_foldl]
  have h := (foldl_handles E (fun i => Event.CreateFiber .FiberThread i 32768)
    World.setFiber (fun m j => (m.jobSystem.fiberPool j).fiber)
    (fun _ _ _ => rfl)
    (fun w i h => by simp [World.setFiber, World.modify])
    (fun w i h j hj => by simp [World.setFiber, World.modify, Function.update, hj])
    (fun t m j => (hE t m).2 j) maxFibers 0 (w.modify fun _ => memory)).2 i (Nat.zero_le _)
    (by rw [Nat.zero_add]; exact hi)
  rw [List.range_eq_range']
  exact h

/-- C4: `Initialize(buffer)` makes the buffer the job system and issues 512
`CreateFiber` calls and nothing else, for `i = 0..511` in order, each with
entry `FiberThread`, argument `i` and stack size 32768; with nobody else
writing the handles, `fiberPool[i].fiber` holds what the call for `i`
returned; with nobody else writing at all, every other field is the
content of the buffer; and 32768 is more than the scheduler stack of 1024. -/
theorem Initialize_creates_every_fiber (E : Env) (memory : JobSystem) (w : World) :
    (Initialize E memory w).trace
      = w.trace ++ (List.range 512).map (fun i => Event.CreateFiber .FiberThread i 32768) ∧
    (E.KeepsHandles → ∀ i, i < 512 →
      ((Initialize E memory w).mem.jobSystem.fiberPool i).fiber
        = E.ret (w.trace ++
            (List.range (i + 1)).map (fun i => Event.CreateFiber .FiberThread i 32768))) ∧
    (E.Alone →
      (Initialize E memory w).mem.jobSystem.runQueues = memory.runQueues ∧
      (Initialize E memory w).mem.jobSystem.waitQueue = memory.waitQueue ∧
      (Initialize E memory w).mem.jobSystem.workerThreads = memory.workerThreads ∧
      (Initialize E memory w).mem.jobSystem.schedulerFibers = memory.schedulerFibers ∧
      (Initialize E memory w).mem.jobSystem.running = memory.running ∧
      (Initialize E memory w).mem.jobSystem.runningWorkers = memory.runningWorkers ∧
      (∀ i, ((Initialize E memory w).mem.jobSystem.fiberPool i).runningJob
        = (memory.fiberPool i).runningJob)) ∧
    maxFibers = 512 ∧ jobStackSize = 32768 ∧ schedulerStackSize = 1024 ∧
    schedulerStackSize < jobStackSize := by
  refine ⟨?_, ?_, ?_, rfl, rfl, rfl, by decide⟩
  · exact Initialize_trace E memory w
  · exact fun hE i hi => Initialize_handles E hE memory w i hi
  · intro hE
    refine ⟨Initialize_keeps E hE (fun js => js.runQueues) (fun _ _ _ => rfl) memory w,
      Initialize_keeps E hE (fun js => js.waitQueue) (fun _ _ _ => rfl) memory w,
      Initialize_keeps E hE (fun js => js.workerThreads) (fun _ _ _ => rfl) memory w,
      Initialize_keeps E hE (fun js => js.schedulerFibers) (fun _ _ _ => rfl) memory w,
      Initialize_keeps E hE (fun js => js.running) (fun _ _ _ => rfl) memory w,
      Initialize_keeps E hE (fun js => js.runningWorkers) (fun _ _ _ => rfl) memory w, ?_⟩
    intro i
    exact Initialize_keeps E hE (fun js => (js.fiberPool i).runningJob)
      (fun js j h => by
        by_cases hij : i = j
        · subst hij; simp
        · simp [Function.update, hij]) memory w

/-- Witness of C4: alone on an all zero buffer, slot 3 holds the handle of the
fourth call and the live worker count is the one of the buffer. -/
theorem Initialize_creates_every_fiber_witness :
    quietEnv.KeepsHandles ∧ quietEnv.Alone ∧
    ((Initialize quietEnv zeroBuffer (startWorld zeroBuffer)).mem.jobSystem.fiberPool 3).fiber
      = 4 ∧
    (Initialize quietEnv zeroBuffer (startWorld zeroBuffer)).mem.jobSystem.runningWorkers = 0 :=
  ⟨quietEnv_alone.keepsHandles, quietEnv_alone,
    (Initialize_creates_every_fiber quietEnv zeroBuffer (startWorld zeroBuffer)).2.1
      quietEnv_alone.keepsHandles 3 (by decide),
    ((Initialize_creates_every_fiber quietEnv zeroBuffer (startWorld zeroBuffer)).2.2.1
      quietEnv_alone).2.2.2.2.2.1⟩

/-! ## Startup -/

/-- The launch loop of `Startup`, started at worker `i`. -/
theorem launchLoop_eq_foldl (E : Env) (i : Nat) (w : World) :
    forLoop workerThreadCount (fun i w =>
      let coreMask := u32 (0x01 <<< i)
      let c := World.call E (.LaunchThread .WorkerStartup i schedulerStackSize coreMask) w
      c.1.setWorkerThread i c.2) i w
    = (List.range' i (workerThreadCount - i)).foldl
        (fun w j => World.setWorkerThread
          (World.call E (.LaunchThread .WorkerStartup j 1024 (u32 (0x01 <<< j))) w).1 j
          (World.call E (.LaunchThread .WorkerStartup j 1024 (u32 (0x01 <<< j))) w).2) w :=
  forLoop_eq_foldl _ _ _ i w rfl

theorem launchLoop_trace (E : Env) (l : List Nat) (w : World) :
    (l.foldl
        (fun w j => World.setWorkerThread
          (World.call E (.LaunchThread .WorkerStartup j 1024 (u32 (0x01 <<< j))) w).1 j
          (World.call E (.LaunchThread .WorkerStartup j 1024 (u32 (0x01 <<< j))) w).2) w).trace
      = w.trace ++ l.map (fun j => Event.LaunchThread .WorkerStartup j 1024 (u32 (0x01 <<< j))) :=
  foldl_trace _ _ (fun _ _ => rfl) l w

theorem launchLoop_handles (E : Env) (hE : E.KeepsHandles) (k i : Nat) (w : World) :
    (∀ j, j < i →
      ((List.range' i k).foldl
        (fun w j => World.setWorkerThread
          (World.call E (.LaunchThread .WorkerStartup j 1024 (u32 (0x01 <<< j))) w).1 j
          (World.call E (.LaunchThread .WorkerStartup j 1024 (u32 (0x01 <<< j))) w).2)
        w).mem.jobSystem.workerThreads j = w.mem.jobSystem.workerThreads j) ∧
    (∀ j, i ≤ j → j < i + k →
      ((List.range' i k).foldl
        (fun w j => World.setWorkerThread
          (World.call E (.LaunchThread .WorkerStartup j 1024 (u32 (0x01 <<< j))) w).1 j
          (World.call E (.LaunchThread .WorkerStartup j 1024 (u32 (0x01 <<< j))) w).2)
        w).mem.jobSystem.workerThreads j
      = E.ret (w.trace ++ (List.range' i (j - i + 1)).map
          (fun j => Event.LaunchThread .WorkerStartup j 1024 (u32 (0x01 <<< j))))) :=
  foldl_handles E (fun j => Event.LaunchThread .WorkerStartup j 1024 (u32 (0x01 <<< j)))
    World.setWorkerThread (fun m j => m.jobSystem.workerThreads j)
    (fun _ _ _ => rfl)
    (fun w i h => by simp [World.setWorkerThread, World.modify])
    (fun w i h j hj => by simp [World.setWorkerThread, World.modify, Function.update, hj])
    (fun t m j => congrFun (hE t m).1 j) k i w

/-- The affinity mask of worker `i < 8` is `2 ^ i`: it fits 32 bits and has
bit `i` set and no other. -/
theorem coreMask_eq (i : Nat) (hi : i < 8) :
    u32 (0x01 <<< i) = 2 ^ i ∧ 2 ^ i < 2 ^ 32 ∧
    ∀ j, (u32 (0x01 <<< i)).testBit j = decide (i = j) := by
  have h : u32 (0x01 <<< i) = 2 ^ i := by
    interval_cases i <;> rfl
  refine ⟨h, ?_, ?_⟩
  · exact Nat.pow_lt_pow_right (by decide) (by omega)
  · intro j
    rw [h, Nat.testBit_two_pow]

/-- C1: `Startup(false)` returns, whatever the fuel, after exactly these
events: the write of `true` to the running flag, then eight `LaunchThread`
calls for `i = 0..7` in order, each with entry `WorkerStartup`, argument `i`,
stack size 1024 and mask `2 ^ i`. The masks fit 32 bits, have the one bit `i`
set and differ between workers. With nobody else writing the thread handles,
`workerThreads[i]` holds what the call for `i` returned. No `BeginFiber` is
issued: no scheduler runs on the calling thread. The flag is set in memory
before the first launch: the state returned is the one the eight launches
and stores lead to from the memory of the caller with `running` true. The
flag is still true on return when nobody else writes it, and with nobody
else writing at all every field but `running` and `workerThreads` is as
before. -/
theorem Startup_launches_all_workers (E : Env) (fuel : Nat) (w : World) :
    ∃ w1, Startup E false fuel w = .returned w1 ∧
      workerThreadCount = 8 ∧ schedulerStackSize = 1024 ∧
      w1.trace = w.trace ++ Event.writeRunning true ::
        (List.range 8).map (fun i => Event.LaunchThread .WorkerStartup i 1024 (2 ^ i)) ∧
      (∀ i, i < 8 → u32 (0x01 <<< i) = 2 ^ i ∧ 2 ^ i < 2 ^ 32 ∧
        ∀ j, (u32 (0x01 <<< i)).testBit j = decide (i = j)) ∧
      (∀ i j, i < 8 → j < 8 → u32 (0x01 <<< i) = u32 (0x01 <<< j) → i = j) ∧
      (E.KeepsHandles → ∀ i, i < 8 →
        w1.mem.jobSystem.workerThreads i = E.ret (w.trace ++ Event.writeRunning true ::
          (List.range (i + 1)).map (fun i => Event.LaunchThread .WorkerStartup i 1024 (2 ^ i)))) ∧
      (∀ e, e ∈ w1.trace.drop w.trace.length → ∀ entry arg, e ≠ Event.BeginFiber entry arg) ∧
      w1 = (List.range 8).foldl
        (fun x i => World.setWorkerThread
          (World.call E (.LaunchThread .WorkerStartup i 1024 (2 ^ i)) x).1 i
          (World.call E (.LaunchThread .WorkerStartup i 1024 (2 ^ i)) x).2)
        { mem := { w.mem with jobSystem := { w.mem.jobSystem with running := true } }
          trace := w.trace ++ [Event.writeRunning true] } ∧
      ((∀ t m, (E.interfere t m).jobSystem.running = m.jobSystem.running) →
        w1.mem.jobSystem.running = true) ∧
      (E.Alone →
        w1.mem.jobSystem.running = true ∧
        w1.mem.jobSystem.runQueues = w.mem.jobSystem.runQueues ∧
        w1.mem.jobSystem.waitQueue = w.mem.jobSystem.waitQueue ∧
        w1.mem.jobSystem.schedulerFibers = w.mem.jobSystem.schedulerFibers ∧
        w1.mem.jobSystem.fiberPool = w.mem.jobSystem.fiberPool ∧
        w1.mem.jobSystem.runningWorkers = w.mem.jobSystem.runningWorkers ∧
        w1.mem.gCurrentThreadIdx = w.mem.gCurrentThreadIdx) := by
  have htrace : (forLoop workerThreadCount (fun i w =>
      let coreMask := u32 (0x01 <<< i)
      let c := World.call E (.LaunchThread .WorkerStartup i schedulerStackSize coreMask) w
      c.1.setWorkerThread i c.2) 0 (w.writeRunning true)).trace
      = w.trace ++ Event.writeRunning true ::
        (List.range 8).map (fun i => Event.LaunchThread .WorkerStartup i 1024 (2 ^ i)) := by
    rw [launchLoop_eq_foldl, launchLoop_trace]
    show (w.trace ++ [Event.writeRunning true]) ++ _ = _
    rw [List.append_assoc]
    rfl
  have hkeeps : ∀ {α : Type} (f : World → α),
      (∀ (j : Nat) (x : World), f (World.setWorkerThread
        (World.call E (.LaunchThread .WorkerStartup j 1024 (u32 (0x01 <<< j))) x).1 j
        (World.call E (.LaunchThread .WorkerStartup j 1024 (u32 (0x01 <<< j))) x).2) = f x) →
      f (forLoop workerThreadCount (fun i w =>
        let coreMask := u32 (0x01 <<< i)
        let c := World.call E (.LaunchThread .WorkerStartup i schedulerStackSize coreMask) w
        c.1.setWorkerThread i c.2) 0 (w.writeRunning true)) = f (w.writeRunning true) := by
    intro α f hf
    rw [launchLoop_eq_foldl]
    exact foldl_keeps _ f hf _ _
  refine ⟨_, rfl, rfl, rfl, htrace, coreMask_eq, ?_, ?_, ?_, ?_, ?_, ?_⟩
  · intro i j hi hj h
    rw [(coreMask_eq i hi).1, (coreMask_eq j hj).1] at h
    exact Nat.pow_right_injective (le_refl 2) h
  · intro hE i hi
    show (forLoop workerThreadCount _ 0 (w.writeRunning true)).mem.jobSystem.workerThreads i = _
    rw [launchLoop_eq_foldl,
      (launchLoop_handles E hE (workerThreadCount - 0) 0 (w.writeRunning true)).2 i
        (Nat.zero_le _) (by simpa [workerThreadCount] using hi)]
    show E.ret ((w.trace ++ [Event.writeRunning true]) ++ _) = _
    rw [List.append_assoc]
    interval_cases i <;> rfl
  · intro e he entry arg
    have he2 : e ∈ List.drop w.trace.length
        (forLoop workerThreadCount _ 0 (w.writeRunning true)).trace := he
    rw [htrace, List.drop_left] at he2
    intro h
    subst h
    simp at he2
  · show forLoop workerThreadCount _ 0 (w.writeRunning true) = _
    rw [launchLoop_eq_foldl]
    rfl
  · intro hE
    exact hkeeps (fun x => x.mem.jobSystem.running) (fun j x => hE _ _)
  · intro hE
    refine ⟨hkeeps (fun x => x.mem.jobSystem.running) (fun j x => ?_),
      hkeeps (fun x => x.mem.jobSystem.runQueues) (fun j x => ?_),
      hkeeps (fun x => x.mem.jobSystem.waitQueue) (fun j x => ?_),
      hkeeps (fun x => x.mem.jobSystem.schedulerFibers) (fun j x => ?_),
      hkeeps (fun x => x.mem.jobSystem.fiberPool) (fun j x => ?_),
      hkeeps (fun x => x.mem.jobSystem.runningWorkers) (fun j x => ?_),
      hkeeps (fun x => x.mem.gCurrentThreadIdx) (fun j x => ?_)⟩ <;>
    simp only [World.call, World.setWorkerThread, World.modify, hE _ _]

/-- Witness of C1: alone on an all zero buffer, `Startup(false)` returns
without fuel, worker 7 holds the handle of the ninth event and the running
flag is set. -/
theorem Startup_launches_all_workers_witness :
    quietEnv.KeepsHandles ∧
    ∃ w1, Startup quietEnv false 0 (startWorld zeroBuffer) = .returned w1 ∧
      w1.mem.jobSystem.workerThreads 7 = 9 ∧
      w1.mem.jobSystem.running = true :=
  ⟨quietEnv_alone.keepsHandles,
    match Startup_launches_all_workers quietEnv 0 (startWorld zeroBuffer) with
    | ⟨w1, h1, _, _, _, _, _, h5, _, _, _, h9⟩ =>
      ⟨w1, h1, (h5 quietEnv_alone.keepsHandles 7 (by decide)).trans rfl,
        (h9 quietEnv_alone).1⟩⟩

/-- C10: when `ScheduleWork` tests its loop condition and the running flag is
cleared, it returns at once: the only event is the read of the flag (no
`SwitchToFiber`), and the memory, so every run queue, the wait queue and
every `runningJob` of the fiber pool, is what it was. -/
theorem ScheduleWork_exits_when_not_running (E : Env) (threadIdx fuel : Nat) (w : World)
    (h : w.mem.jobSystem.running = false) :
    ∃ w1, ScheduleWork E threadIdx (fuel + 1) w = .returned w1 ∧
      w1.mem = w.mem ∧
      w1.mem.jobSystem.runQueues = w.mem.jobSystem.runQueues ∧
      w1.mem.jobSystem.waitQueue = w.mem.jobSystem.waitQueue ∧
      w1.mem.jobSystem.fiberPool = w.mem.jobSystem.fiberPool ∧
      w1.trace = w.trace ++ [Event.readRunning false] := by
  refine ⟨w.emit (.readRunning false), ?_, rfl, rfl, rfl, rfl, rfl⟩
  simp [ScheduleWork, World.readRunning, h]

/-- Witness of C10: the first test of the loop condition after `Shutdown`,
with jobs in the run queues. -/
theorem ScheduleWork_exits_when_not_running_witness :
    (Shutdown (startWorld queuedBuffer)).mem.jobSystem.running = false ∧
    ∃ w1, ScheduleWork strayEnv 0 1 (Shutdown (startWorld queuedBuffer)) = .returned w1 ∧
      w1.mem.jobSystem.runQueues = (startWorld queuedBuffer).mem.jobSystem.runQueues ∧
      w1.trace = [Event.writeRunning false, Event.readRunning false] :=
  ⟨rfl,
    match ScheduleWork_exits_when_not_running strayEnv 0 0 (Shutdown (startWorld queuedBuffer))
      rfl with
    | ⟨w1, h1, _, h3, _, _, h6⟩ => ⟨w1, h1, h3, h6⟩⟩

/-- The flag is cleared while the scheduler is switched out: at the next test
of the loop condition `ScheduleWork` returns, with no further install or
switch, and the jobs in the run queues stay where they are. -/
theorem ScheduleWork_exits_at_next_check :
    (ScheduleWork strayShutdownEnv 0 2 (startWorld queuedBuffer)).isReturned = true ∧
    (ScheduleWork strayShutdownEnv 0 2 (startWorld queuedBuffer)).world.trace
      = [Event.readRunning true, Event.SwitchToFiber 0, Event.readRunning false] ∧
    (ScheduleWork strayShutdownEnv 0 2 (startWorld queuedBuffer)).world.mem.jobSystem.runQueues
      = (startWorld queuedBuffer).mem.jobSystem.runQueues :=
  ⟨rfl, rfl, rfl⟩

/-- One iteration of `ScheduleWork` while the system runs: the job installed
is the uninitialised local, whatever the run queues hold, and the loop goes
on from there. -/
theorem ScheduleWork_dispatches_local (E : Env) (threadIdx fuel : Nat) (w : World) (i : Nat)
    (hrun : w.mem.jobSystem.running = true)
    (hfib : (E.indeterminate (w.trace ++ [Event.readRunning true])).fiber = some i)
    (hi : i < maxFibers) :
    ScheduleWork E threadIdx (fuel + 1) w
      = ScheduleWork E threadIdx fuel
          (World.call E (.SwitchToFiber (w.mem.jobSystem.fiberPool i).fiber)
            ((w.emit (.readRunning true)).setRunningJob i
              (E.indeterminate (w.trace ++ [Event.readRunning true])))).1 := by
  have h1 : (w.readRunning).2 = true := hrun
  have h2 : (w.readRunning).1 = w.emit (.readRunning true) := by
    simp [World.readRunning, hrun]
  have h3 : (w.emit (.readRunning true)).trace = w.trace ++ [Event.readRunning true] := rfl
  rw [ScheduleWork]
  simp only [h1, h2, h3, if_true, hfib, if_pos hi]
  simp [World.setRunningJob, World.modify, World.emit]

/-- C7, at the failing input: every slot of every run queue holds `queuedJob`
and the uninitialised local holds `strayJob`. One iteration of `ScheduleWork`
installs `strayJob` on fiber 3 and switches to it; no run queue was read or
changed, and `queuedJob` is not the job dispatched. -/
theorem ScheduleWork_ignores_run_queues :
    ((ScheduleWork strayEnv 0 1 (startWorld queuedBuffer)).world.mem.jobSystem.fiberPool 3).runningJob
      = strayJob ∧
    strayJob ≠ queuedJob ∧
    (ScheduleWork strayEnv 0 1 (startWorld queuedBuffer)).world.trace
      = [Event.readRunning true, Event.SwitchToFiber 0] ∧
    (∀ p k, ((startWorld queuedBuffer).mem.jobSystem.runQueues p).jobs k = queuedJob) ∧
    (ScheduleWork strayEnv 0 1 (startWorld queuedBuffer)).world.mem.jobSystem.runQueues
      = (startWorld queuedBuffer).mem.jobSystem.runQueues :=
  ⟨rfl, by decide, rfl, fun _ _ => rfl, rfl⟩

/-- C8, at the failing input: the system runs and the uninitialised local
holds a null `fiber`. `ScheduleWork` finds no fiber (the branch for a null
fiber is empty) and goes on to store through the null pointer: the first
iteration faults, after the read of the running flag and before any
`SwitchToFiber`. -/
theorem ScheduleWork_null_fiber_faults :
    (quietEnv.indeterminate [Event.readRunning true]).fiber = none ∧
    (ScheduleWork quietEnv 0 1 (startWorld queuedBuffer)).isFault = true ∧
    (∀ fuel, (ScheduleWork quietEnv 0 (fuel + 1) (startWorld queuedBuffer)).isFault = true) ∧
    (ScheduleWork quietEnv 0 1 (startWorld queuedBuffer)).world.trace
      = [Event.readRunning true] :=
  ⟨rfl, rfl, fun _ => rfl, rfl⟩

/-- While the flag stays set and the uninitialised local holds a pointer into
the pool, the scheduler loop goes on for as long as it is given fuel. -/
theorem ScheduleWork_stray_keeps_running (threadIdx : Nat) :
    ∀ (fuel : Nat) (w : World), w.mem.jobSystem.running = true →
      (ScheduleWork strayEnv threadIdx fuel w).isOutOfFuel = true := by
  intro fuel
  induction fuel with
  | zero => intro w _; rfl
  | succ fuel ih =>
    intro w hw
    rw [ScheduleWork_dispatches_local strayEnv threadIdx fuel w 3 hw rfl (by decide)]
    exact ih _ hw

/-- With `Shutdown` called by another thread in the meantime, `Startup(true)`
returns. -/
theorem Startup_true_returns_after_shutdown :
    (Startup shutdownEnv true 1 (startWorld zeroBuffer)).isReturned = true :=
  rfl

/-- With the flag left set, `Startup(true)` stays in the scheduler loop of
worker 0 for as long as it is given fuel. -/
theorem Startup_true_stays_in_scheduler (fuel : Nat) :
    (Startup strayEnv true fuel (startWorld zeroBuffer)).isReturned = false := by
  let wL := forLoop workerThreadCount (fun i w =>
    let coreMask := u32 (0x01 <<< i)
    let c := World.call strayEnv (.LaunchThread .WorkerStartup i schedulerStackSize coreMask) w
    c.1.setWorkerThread i c.2) 1 ((startWorld zeroBuffer).writeRunning true)
  let wC := World.call strayEnv .CurrentThread wL
  let wB := wC.1.setWorkerThread 0 wC.2
  let wA := (World.call strayEnv
    (.SetThreadAffinity (wB.mem.jobSystem.workerThreads 0) 0x01) wB).1
  let w0 := (World.call strayEnv (.BeginFiber .ScheduleWork 0)
    (AtomicIncrement32 strayEnv
      { wA with mem := { wA.mem with gCurrentThreadIdx := u32 0 } })).1
  have hkeep : wL.mem.jobSystem.running = true := by
    show (forLoop workerThreadCount _ 1
      ((startWorld zeroBuffer).writeRunning true)).mem.jobSystem.running = true
    rw [launchLoop_eq_foldl]
    exact foldl_keeps
      (fun j w => World.setWorkerThread
        (World.call strayEnv (.LaunchThread .WorkerStartup j 1024 (u32 (0x01 <<< j))) w).1 j
        (World.call strayEnv (.LaunchThread .WorkerStartup j 1024 (u32 (0x01 <<< j))) w).2)
      (fun w => w.mem.jobSystem.running) (fun _ _ => rfl) _ _
  have h0 : w0.mem.jobSystem.running = true := hkeep
  have hS := ScheduleWork_stray_keeps_running 0 fuel w0 h0
  have hEq : Startup strayEnv true fuel (startWorld zeroBuffer) =
      (match ScheduleWork strayEnv 0 fuel w0 with
        | .returned w2 =>
          .returned (AtomicDecrement32 strayEnv (w2.setSchedulerFiber 0 (strayEnv.ret w0.trace)))
        | o => o) := rfl
  rw [hEq]
  revert hS
  cases ScheduleWork strayEnv 0 fuel w0 with
  | returned x => intro h; simp [Outcome.isOutOfFuel] at h
  | fault x => intro _; rfl
  | outOfFuel x => intro _; rfl

/-! ## FiberThread -/

theorem FiberThread_step (E : Env) (fiberIdx fuel : Nat) (w : World)
    (hidx : fiberIdx < maxFibers)
    (hentry : (w.mem.jobSystem.fiberPool fiberIdx).runningJob.entryFn ≠ 0)
    (hthread : GetCurrentThreadIndex (fiberAfterJob E fiberIdx w) < workerThreadCount) :
    FiberThread E fiberIdx (fuel + 1) w
      = FiberThread E fiberIdx fuel (fiberAfterSwitch E fiberIdx w) := by
  rw [FiberThread]
  simp only [if_pos hidx, if_neg hentry]
  exact if_pos hthread

theorem FiberThread_fault_entry (E : Env) (fiberIdx fuel : Nat) (w : World)
    (hidx : fiberIdx < maxFibers)
    (hentry : (w.mem.jobSystem.fiberPool fiberIdx).runningJob.entryFn = 0) :
    FiberThread E fiberIdx (fuel + 1) w = .fault w := by
  rw [FiberThread]
  simp only [if_pos hidx, if_pos hentry]

theorem FiberThread_fault_thread (E : Env) (fiberIdx fuel : Nat) (w : World)
    (hidx : fiberIdx < maxFibers)
    (hentry : (w.mem.jobSystem.fiberPool fiberIdx).runningJob.entryFn ≠ 0)
    (hthread : ¬ GetCurrentThreadIndex (fiberAfterJob E fiberIdx w) < workerThreadCount) :
    FiberThread E fiberIdx (fuel + 1) w = .fault (fiberAfterJob E fiberIdx w) := by
  rw [FiberThread]
  simp only [if_pos hidx, if_neg hentry]
  exact if_neg hthread

theorem FiberThread_fault_index (E : Env) (fiberIdx fuel : Nat) (w : World)
    (hidx : ¬ fiberIdx < maxFibers) :
    FiberThread E fiberIdx (fuel + 1) w = .fault w := by
  rw [FiberThread]
  simp only [if_neg hidx]

theorem FiberThread_not_returned (E : Env) (fiberIdx : Nat) :
    ∀ fuel w, (FiberThread E fiberIdx fuel w).isReturned = false := by
  intro fuel
  induction fuel with
  | zero => intro w; rfl
  | succ n ih =>
    intro w
    by_cases hidx : fiberIdx < maxFibers
    · by_cases hentry : (w.mem.jobSystem.fiberPool fiberIdx).runningJob.entryFn = 0
      · rw [FiberThread_fault_entry E fiberIdx n w hidx hentry]; rfl
      · by_cases hthread :
            GetCurrentThreadIndex (fiberAfterJob E fiberIdx w) < workerThreadCount
        · rw [FiberThread_step E fiberIdx n w hidx hentry hthread]; exact ih _
        · rw [FiberThread_fault_thread E fiberIdx n w hidx hentry hthread]; rfl
    · rw [FiberThread_fault_index E fiberIdx n w hidx]; rfl

/-- As long as the jobs installed have an entry function and the thread
index is one of a worker, the trampoline goes from iteration to iteration. -/
theorem FiberThread_runs (E : Env) (fiberIdx : Nat) (hidx : fiberIdx < maxFibers) :
    ∀ fuel w,
      (∀ j, j < fuel →
        (((fiberAfterSwitch E fiberIdx)^[j] w).mem.jobSystem.fiberPool
          fiberIdx).runningJob.entryFn ≠ 0 ∧
        GetCurrentThreadIndex (fiberAfterJob E fiberIdx ((fiberAfterSwitch E fiberIdx)^[j] w))
          < workerThreadCount) →
      FiberThread E fiberIdx fuel w = .outOfFuel ((fiberAfterSwitch E fiberIdx)^[fuel] w) := by
  intro fuel
  induction fuel with
  | zero => intro w _; rfl
  | succ n ih =>
    intro w h
    rw [FiberThread_step E fiberIdx n w hidx (h 0 (Nat.succ_pos n)).1 (h 0 (Nat.succ_pos n)).2,
      ih (fiberAfterSwitch E fiberIdx w) (fun j hj => h (j + 1) (Nat.succ_lt_succ hj))]
    rfl

/-- The first iteration that finds no entry function, or a thread index that
is not one of a worker, faults. -/
theorem FiberThread_faults (E : Env) (fiberIdx : Nat) (hidx : fiberIdx < maxFibers) :
    ∀ k fuel w, k < fuel →
      (∀ j, j < k →
        (((fiberAfterSwitch E fiberIdx)^[j] w).mem.jobSystem.fiberPool
          fiberIdx).runningJob.entryFn ≠ 0 ∧
        GetCurrentThreadIndex (fiberAfterJob E fiberIdx ((fiberAfterSwitch E fiberIdx)^[j] w))
          < workerThreadCount) →
      ((((fiberAfterSwitch E fiberIdx)^[k] w).mem.jobSystem.fiberPool
          fiberIdx).runningJob.entryFn = 0 →
        FiberThread E fiberIdx fuel w = .fault ((fiberAfterSwitch E fiberIdx)^[k] w)) ∧
      ((((fiberAfterSwitch E fiberIdx)^[k] w).mem.jobSystem.fiberPool
          fiberIdx).runningJob.entryFn ≠ 0 →
        ¬ GetCurrentThreadIndex (fiberAfterJob E fiberIdx ((fiberAfterSwitch E fiberIdx)^[k] w))
          < workerThreadCount →
        FiberThread E fiberIdx fuel w
          = .fault (fiberAfterJob E fiberIdx ((fiberAfterSwitch E fiberIdx)^[k] w))) := by
  intro k
  induction k with
  | zero =>
    intro fuel w hk _
    obtain ⟨n, rfl⟩ : ∃ n, fuel = n + 1 := ⟨fuel - 1, by omega⟩
    exact ⟨fun h => FiberThread_fault_entry E fiberIdx n w hidx h,
      fun h1 h2 => FiberThread_fault_thread E fiberIdx n w hidx h1 h2⟩
  | succ k ih =>
    intro fuel w hk h
    obtain ⟨n, rfl⟩ : ∃ n, fuel = n + 1 := ⟨fuel - 1, by omega⟩
    rw [FiberThread_step E fiberIdx n w hidx (h 0 (Nat.succ_pos k)).1 (h 0 (Nat.succ_pos k)).2]
    exact ih n (fiberAfterSwitch E fiberIdx w) (by omega)
      (fun j hj => h (j + 1) (Nat.succ_lt_succ hj))

theorem FiberThread_trace (E : Env) (fiberIdx : Nat) (w : World) :
    ∀ n, ((fiberAfterSwitch E fiberIdx)^[n] w).trace = w.trace ++
      (List.range n).flatMap (fun j =>
        [Event.jobEntry
            (((fiberAfterSwitch E fiberIdx)^[j] w).mem.jobSystem.fiberPool
              fiberIdx).runningJob.entryFn
            (((fiberAfterSwitch E fiberIdx)^[j] w).mem.jobSystem.fiberPool
              fiberIdx).runningJob.user,
          Event.SwitchToFiber
            ((fiberAfterJob E fiberIdx
              ((fiberAfterSwitch E fiberIdx)^[j] w)).mem.jobSystem.schedulerFibers
              (GetCurrentThreadIndex
                (fiberAfterJob E fiberIdx ((fiberAfterSwitch E fiberIdx)^[j] w))))]) := by
  intro n
  induction n with
  | zero => simp
  | succ n ih =>
    rw [Function.iterate_succ_apply', List.range_succ, List.flatMap_append, ← List.append_assoc,
      ← ih]
    simp [fiberAfterSwitch, fiberAfterJob, World.call]

/-- With nobody else writing the thread index, the scheduler loop leaves it
as it is. -/
theorem ScheduleWork_keeps_threadIdx (E : Env)
    (hE : ∀ t m, (E.interfere t m).gCurrentThreadIdx = m.gCurrentThreadIdx) (threadIdx : Nat) :
    ∀ fuel w, (ScheduleWork E threadIdx fuel w).world.mem.gCurrentThreadIdx
      = w.mem.gCurrentThreadIdx := by
  intro fuel
  induction fuel with
  | zero => intro w; rfl
  | succ n ih =>
    intro w
    rw [ScheduleWork]
    simp only []
    split
    · split
      · rfl
      · split
        · rw [ih]
          exact hE _ _
        · rfl
    · rfl

/-- With nobody else writing the thread index, it is `threadIdx` (as a
`uint32`) from the first statement of `WorkerStartup(threadIdx)` on. -/
theorem WorkerStartup_sets_threadIdx (E : Env)
    (hE : ∀ t m, (E.interfere t m).gCurrentThreadIdx = m.gCurrentThreadIdx)
    (threadIdx fuel : Nat) (w : World) :
    GetCurrentThreadIndex (WorkerStartup E threadIdx fuel w).world = u32 threadIdx := by
  have h := ScheduleWork_keeps_threadIdx E hE threadIdx fuel
    (World.call E (.BeginFiber .ScheduleWork threadIdx)
      (AtomicIncrement32 E
        { w with mem := { w.mem with gCurrentThreadIdx := u32 threadIdx } })).1
  have h0 : (World.call E (.BeginFiber .ScheduleWork threadIdx)
      (AtomicIncrement32 E
        { w with mem := { w.mem with gCurrentThreadIdx := u32 threadIdx } })).1.mem.gCurrentThreadIdx
      = u32 threadIdx := by
    simp only [World.call, AtomicIncrement32, World.modify, hE]
  rw [h0] at h
  show (match ScheduleWork E threadIdx fuel _ with
    | .returned w2 => Outcome.returned _
    | o => o).world.mem.gCurrentThreadIdx = _
  revert h
  cases ScheduleWork E threadIdx fuel _ with
  | returned x =>
    intro h
    simp only [Outcome.world, AtomicDecrement32, World.call, World.setSchedulerFiber,
      World.modify, hE]
    exact h
  | fault x => intro h; exact h
  | outOfFuel x => intro h; exact h

/-- C9: `FiberThread(fiberIdx)` never returns: whatever the fuel, it has not
returned. Its run is the chain of states `start 0 = w`, `afterJob j`,
`start (j + 1)`: iteration `j` reads the job in
`fiberPool[fiberIdx].runningJob` as it is in `start j`, calls its `entryFn`
with its `user` once (`afterJob j` is the state when that call returns), and
then calls `SwitchToFiber` on `schedulerFibers[t]`, read in `afterJob j`,
`t` being what `GetCurrentThreadIndex()` gives there, which is the thread
local index; `start (j + 1)` is the state when the switch returns. As long
as the job read has an entry function and `t` is the index of a worker, the
trampoline is still running after `fuel` iterations, in `start fuel`, and its
events are exactly the two calls of each iteration; the first iteration
where the entry function is null or `t` is no worker index faults, as does a
`fiberIdx` outside the pool. `WorkerStartup(threadIdx)` sets the thread local
index to `threadIdx`. -/
theorem FiberThread_loops_forever (E : Env) (fiberIdx : Nat) (w : World) :
    ∃ (start afterJob : Nat → World),
      start 0 = w ∧
      (∀ j, afterJob j =
        { mem := E.interfere
            ((start j).trace ++
              [Event.jobEntry ((start j).mem.jobSystem.fiberPool fiberIdx).runningJob.entryFn
                ((start j).mem.jobSystem.fiberPool fiberIdx).runningJob.user])
            (start j).mem
          trace := (start j).trace ++
            [Event.jobEntry ((start j).mem.jobSystem.fiberPool fiberIdx).runningJob.entryFn
              ((start j).mem.jobSystem.fiberPool fiberIdx).runningJob.user] }) ∧
      (∀ j, start (j + 1) =
        { mem := E.interfere
            ((afterJob j).trace ++
              [Event.SwitchToFiber ((afterJob j).mem.jobSystem.schedulerFibers
                (GetCurrentThreadIndex (afterJob j)))])
            (afterJob j).mem
          trace := (afterJob j).trace ++
            [Event.SwitchToFiber ((afterJob j).mem.jobSystem.schedulerFibers
              (GetCurrentThreadIndex (afterJob j)))] }) ∧
      (∀ x : World, GetCurrentThreadIndex x = x.mem.gCurrentThreadIdx) ∧
      (∀ fuel, (FiberThread E fiberIdx fuel w).isReturned = false) ∧
      FiberThread E fiberIdx 0 w = .outOfFuel w ∧
      (fiberIdx < maxFibers → ∀ fuel,
        (∀ j, j < fuel →
          ((start j).mem.jobSystem.fiberPool fiberIdx).runningJob.entryFn ≠ 0 ∧
          GetCurrentThreadIndex (afterJob j) < workerThreadCount) →
        FiberThread E fiberIdx fuel w = .outOfFuel (start fuel) ∧
        (start fuel).trace = w.trace ++ (List.range fuel).flatMap (fun j =>
          [Event.jobEntry ((start j).mem.jobSystem.fiberPool fiberIdx).runningJob.entryFn
              ((start j).mem.jobSystem.fiberPool fiberIdx).runningJob.user,
            Event.SwitchToFiber ((afterJob j).mem.jobSystem.schedulerFibers
              (GetCurrentThreadIndex (afterJob j)))])) ∧
      (fiberIdx < maxFibers → ∀ fuel k, k < fuel →
        (∀ j, j < k →
          ((start j).mem.jobSystem.fiberPool fiberIdx).runningJob.entryFn ≠ 0 ∧
          GetCurrentThreadIndex (afterJob j) < workerThreadCount) →
        (((start k).mem.jobSystem.fiberPool fiberIdx).runningJob.entryFn = 0 →
          FiberThread E fiberIdx fuel w = .fault (start k)) ∧
        (((start k).mem.jobSystem.fiberPool fiberIdx).runningJob.entryFn ≠ 0 →
          ¬ GetCurrentThreadIndex (afterJob k) < workerThreadCount →
          FiberThread E fiberIdx fuel w = .fault (afterJob k))) ∧
      (¬ fiberIdx < maxFibers → ∀ fuel, FiberThread E fiberIdx (fuel + 1) w = .fault w) ∧
      ((∀ t m, (E.interfere t m).gCurrentThreadIdx = m.gCurrentThreadIdx) →
        ∀ threadIdx fuel w0,
          GetCurrentThreadIndex (WorkerStartup E threadIdx fuel w0).world = u32 threadIdx ∧
          (threadIdx < workerThreadCount → u32 threadIdx = threadIdx)) := by
  refine ⟨fun j => (fiberAfterSwitch E fiberIdx)^[j] w,
    fun j => fiberAfterJob E fiberIdx ((fiberAfterSwitch E fiberIdx)^[j] w),
    rfl, fun _ => rfl, fun j => ?_, fun _ => rfl, fun fuel => FiberThread_not_returned E fiberIdx fuel w, rfl,
    fun hidx fuel h => ⟨FiberThread_runs E fiberIdx hidx fuel w h, FiberThread_trace E fiberIdx w fuel⟩,
    fun hidx fuel k hk h => FiberThread_faults E fiberIdx hidx k fuel w hk h,
    fun hidx fuel => FiberThread_fault_index E fiberIdx fuel w hidx,
    fun hE threadIdx fuel w0 => ⟨WorkerStartup_sets_threadIdx E hE threadIdx fuel w0, fun h => ?_⟩⟩
  · show (fiberAfterSwitch E fiberIdx)^[j + 1] w = _
    rw [Function.iterate_succ_apply']
    rfl
  · exact Nat.mod_eq_of_lt (lt_trans h (by decide))

/-- Witness of C9: fiber 3 has a job installed and is taken over by another
worker thread between its jobs. After two iterations it is still running,
and its four events are the two job calls, the first followed by the
switch to scheduler fiber 100 (thread 0) and the second by the switch to
scheduler fiber 101 (thread 1). -/
theorem FiberThread_loops_forever_witness :
    3 < maxFibers ∧
    ∃ (start afterJob : Nat → World),
      start 0 = startWorld busyBuffer ∧
      GetCurrentThreadIndex (afterJob 0) = 0 ∧
      GetCurrentThreadIndex (afterJob 1) = 1 ∧
      FiberThread migratingEnv 3 2 (startWorld busyBuffer) = .outOfFuel (start 2) ∧
      (start 2).trace
        = [Event.jobEntry 100 1, Event.SwitchToFiber 100,
           Event.jobEntry 100 1, Event.SwitchToFiber 101] := by
  obtain ⟨start, afterJob, h0, hA, hS, _, _, _, hrun, _⟩ :=
    FiberThread_loops_forever migratingEnv 3 (startWorld busyBuffer)
  have hA0 := hA 0
  rw [h0] at hA0
  have hS0 : start 1 = _ := hS 0
  rw [hA0] at hS0
  have hA1 := hA 1
  rw [hS0] at hA1
  have hvalid : ∀ j, j < 2 →
      ((start j).mem.jobSystem.fiberPool 3).runningJob.entryFn ≠ 0 ∧
      GetCurrentThreadIndex (afterJob j) < workerThreadCount := by
    intro j hj
    interval_cases j
    · rw [h0, hA0]; decide
    · rw [hS0, hA1]; decide
  obtain ⟨h1, h2⟩ := hrun (by decide) 2 hvalid
  refine ⟨by decide, start, afterJob, h0, ?_, ?_, h1, ?_⟩
  · rw [hA0]; rfl
  · rw [hA1]; rfl
  · rw [h2]
    simp only [List.range_succ, List.range_zero, List.nil_append, List.flatMap_append,
      List.flatMap_cons, List.flatMap_nil, List.append_nil]
    rw [hA1, hS0, hA0, h0]
    rfl

/-- The thread index is read anew in every iteration: with the fiber on
thread 0 when its first job returns and on thread 1 when its second job
returns, the first switch goes to scheduler fiber 100 and the second to
scheduler fiber 101. -/
theorem FiberThread_rereads_thread_index :
    (FiberThread migratingEnv 3 2 (startWorld busyBuffer)).world.trace
      = [Event.jobEntry 100 1, Event.SwitchToFiber 100,
         Event.jobEntry 100 1, Event.SwitchToFiber 101] ∧
    (FiberThread migratingEnv 3 2 (startWorld busyBuffer)).isOutOfFuel = true := by
  decide

/-- A fiber whose slot holds no entry function faults at the call, before
any event; so does a fiber index outside the pool. -/
theorem FiberThread_null_entry_faults :
    (FiberThread quietEnv 3 1 (startWorld zeroBuffer)).isFault = true ∧
    (FiberThread quietEnv 3 1 (startWorld zeroBuffer)).world.trace = [] ∧
    (FiberThread quietEnv 512 1 (startWorld busyBuffer)).isFault = true := by
  decide

/-! ## Deinitialize -/

theorem destroyLoop_eq_foldl (E : Env) (w : World) :
    forLoop maxFibers (fun i w =>
      (World.call E (.DestroyFiber (w.mem.jobSystem.fiberPool i).fiber) w).1) 0 w
    = (List.range' 0 maxFibers).foldl
        (fun w j => (World.call E (.DestroyFiber (w.mem.jobSystem.fiberPool j).fiber) w).1) w :=
  forLoop_eq_foldl _ _ maxFibers 0 w rfl

/-- The destroy loop issues one `DestroyFiber` a slot and nothing else; with
nobody else writing the fiber handles, the handles destroyed are the ones the
pool held when the loop started. -/
theorem destroyLoop_shape (E : Env) :
    ∀ (l : List Nat) (w : World), ∃ handles : List Nat,
      handles.length = l.length ∧
      (l.foldl (fun w j =>
        (World.call E (.DestroyFiber (w.mem.jobSystem.fiberPool j).fiber) w).1) w).trace
        = w.trace ++ handles.map Event.DestroyFiber ∧
      (E.KeepsHandles → handles = l.map (fun i => (w.mem.jobSystem.fiberPool i).fiber)) := by
  intro l
  induction l with
  | nil => intro w; exact ⟨[], rfl, by simp, fun _ => rfl⟩
  | cons a l ih =>
    intro w
    obtain ⟨hs, h1, h2, h3⟩ :=
      ih (World.call E (.DestroyFiber (w.mem.jobSystem.fiberPool a).fiber) w).1
    refine ⟨(w.mem.jobSystem.fiberPool a).fiber :: hs, by simp [h1], ?_, ?_⟩
    · rw [List.foldl_cons, h2]
      simp [World.call]
    · intro hE
      rw [h3 hE, List.map_cons]
      congr 1
      apply List.map_congr_left
      intro i _
      exact (hE _ _).2 i

theorem destroyLoop_trace (E : Env) (hE : E.KeepsHandles) (l : List Nat) (w : World) :
    (l.foldl (fun w j =>
      (World.call E (.DestroyFiber (w.mem.jobSystem.fiberPool j).fiber) w).1) w).trace
    = w.trace ++ l.map (fun i => Event.DestroyFiber (w.mem.jobSystem.fiberPool i).fiber) := by
  obtain ⟨hs, _, h2, h3⟩ := destroyLoop_shape E l w
  rw [h2, h3 hE, List.map_map]
  rfl

theorem Deinitialize_step_zero (E : Env) (fuel : Nat) (w : World)
    (h : w.mem.jobSystem.runningWorkers = 0) :
    Deinitialize E (fuel + 1) w
      = .returned (forLoop maxFibers (fun i w =>
          (World.call E (.DestroyFiber (w.mem.jobSystem.fiberPool i).fiber) w).1) 0
          (w.emit (.readRunningWorkers 0))) := by
  simp [ Deinitialize, World.readRunningWorkers, h]

theorem Deinitialize_step_pos (E : Env) (fuel : Nat) (w : World)
    (h : w.mem.jobSystem.runningWorkers ≠ 0) :
    Deinitialize E (fuel + 1) w
      = Deinitialize E fuel
          (World.call E .Yield (w.emit (.readRunningWorkers w.mem.jobSystem.runningWorkers))).1 := by
  simp [ Deinitialize, World.readRunningWorkers, h]

theorem destroyLoop_eq_destroyed (E : Env) (w : World) :
    ∀ k i, (List.range' i k).foldl
        (fun w j => (World.call E (.DestroyFiber (w.mem.jobSystem.fiberPool j).fiber) w).1)
        (destroyed E w i)
      = destroyed E w (i + k) := by
  intro k
  induction k with
  | zero => intro i; rfl
  | succ k ih =>
    intro i
    rw [List.range'_succ, List.foldl_cons]
    have h := ih (i + 1)
    rw [show i + 1 + k = i + (k + 1) by omega] at h
    exact h

theorem destroyed_trace (E : Env) (w : World) :
    ∀ n, (destroyed E w n).trace = w.trace ++
      (List.range n).map (fun i =>
        Event.DestroyFiber ((destroyed E w i).mem.jobSystem.fiberPool i).fiber) := by
  intro n
  induction n with
  | zero => simp [destroyed]
  | succ n ih =>
    rw [List.range_succ, List.map_append, ← List.append_assoc, ← ih]
    rfl

theorem destroyed_handles (E : Env) (hE : E.KeepsHandles) (w : World) :
    ∀ n j, ((destroyed E w n).mem.jobSystem.fiberPool j).fiber
      = (w.mem.jobSystem.fiberPool j).fiber := by
  intro n
  induction n with
  | zero => intro j; rfl
  | succ n ih =>
    intro j
    rw [← ih j]
    exact (hE _ _).2 j

theorem waitRound_trace (E : Env) (w : World) :
    ∀ n, ((waitRound E)^[n] w).trace = w.trace ++
      (List.range n).flatMap (fun j =>
        [Event.readRunningWorkers ((waitRound E)^[j] w).mem.jobSystem.runningWorkers,
          Event.Yield]) := by
  intro n
  induction n with
  | zero => simp
  | succ n ih =>
    rw [Function.iterate_succ_apply', List.range_succ, List.flatMap_append, ← List.append_assoc,
      ← ih]
    simp [waitRound, World.call, World.emit]

theorem waitRound_handles (E : Env) (hE : E.KeepsHandles) (w : World) :
    ∀ n j, (((waitRound E)^[n] w).mem.jobSystem.fiberPool j).fiber
      = (w.mem.jobSystem.fiberPool j).fiber := by
  intro n
  induction n with
  | zero => intro j; rfl
  | succ n ih =>
    intro j
    rw [Function.iterate_succ_apply', ← ih j]
    exact (hE _ _).2 j

/-- While every read of the live worker count gives a value that is not zero,
`Deinitialize` goes from round to round. -/
theorem Deinitialize_waits (E : Env) :
    ∀ fuel w, (∀ j, j < fuel → ((waitRound E)^[j] w).mem.jobSystem.runningWorkers ≠ 0) →
      Deinitialize E fuel w = .outOfFuel ((waitRound E)^[fuel] w) := by
  intro fuel
  induction fuel with
  | zero => intro w _; rfl
  | succ n ih =>
    intro w h
    rw [Deinitialize_step_pos E n w (h 0 (Nat.succ_pos n))]
    exact ih (waitRound E w) (fun j hj => h (j + 1) (Nat.succ_lt_succ hj))

/-- The first read of the live worker count that gives zero ends the wait:
the destroy loop runs and `Deinitialize` returns. -/
theorem Deinitialize_destroys (E : Env) :
    ∀ k fuel w, k < fuel →
      (∀ j, j < k → ((waitRound E)^[j] w).mem.jobSystem.runningWorkers ≠ 0) →
      ((waitRound E)^[k] w).mem.jobSystem.runningWorkers = 0 →
      Deinitialize E fuel w
        = .returned (destroyed E (((waitRound E)^[k] w).emit (.readRunningWorkers 0))
            maxFibers) := by
  intro k
  induction k with
  | zero =>
    intro fuel w hk _ h0
    obtain ⟨n, rfl⟩ : ∃ n, fuel = n + 1 := ⟨fuel - 1, by omega⟩
    rw [Deinitialize_step_zero E n w h0, destroyLoop_eq_foldl]
    have h := destroyLoop_eq_destroyed E (w.emit (.readRunningWorkers 0)) maxFibers 0
    rw [Nat.zero_add] at h
    exact congrArg Outcome.returned h
  | succ k ih =>
    intro fuel w hk h h0
    obtain ⟨n, rfl⟩ : ∃ n, fuel = n + 1 := ⟨fuel - 1, by omega⟩
    rw [Deinitialize_step_pos E n w (h 0 (Nat.succ_pos k))]
    exact ih n (waitRound E w) (by omega) (fun j hj => h (j + 1) (Nat.succ_lt_succ hj)) h0

/-- C5: the run of `Deinitialize()` is the chain of states `found 0 = w`,
`found (j + 1)`: in `found j` it reads the live worker count from memory and,
the value not being zero, calls `Yield` once; `found (j + 1)` is the state
when `Yield` returns, where it reads again. While no read gave zero it is
still running (after as many reads as fuel) and has issued only reads and
`Yield`s, so no `DestroyFiber`. The first read that gives zero, in `found k`,
is followed by the chain `seen 0 .. seen 512`: `DestroyFiber` on
`fiberPool[i].fiber`, read in `seen i`, for `i = 0..511`, once each and in
order, and then the return. There is no other event. With nobody else
writing the fiber handles, the handles destroyed are those the pool held on
entry. -/
theorem Deinitialize_waits_then_destroys (E : Env) (fuel : Nat) (w : World) :
    ∃ (found seen : Nat → World) (k : Nat),
      found 0 = w ∧
      (∀ j, found (j + 1) =
        { mem := E.interfere
            ((found j).trace ++
              [Event.readRunningWorkers (found j).mem.jobSystem.runningWorkers, Event.Yield])
            (found j).mem
          trace := (found j).trace ++
            [Event.readRunningWorkers (found j).mem.jobSystem.runningWorkers, Event.Yield] }) ∧
      (∀ j, j < k → (found j).mem.jobSystem.runningWorkers ≠ 0) ∧
      (found k).trace = w.trace ++ (List.range k).flatMap (fun j =>
        [Event.readRunningWorkers (found j).mem.jobSystem.runningWorkers, Event.Yield]) ∧
      ((k = fuel ∧ Deinitialize E fuel w = .outOfFuel (found k)) ∨
        (k < fuel ∧ (found k).mem.jobSystem.runningWorkers = 0 ∧
          seen 0 = { mem := (found k).mem
                     trace := (found k).trace ++ [Event.readRunningWorkers 0] } ∧
          (∀ i, seen (i + 1) =
            { mem := E.interfere
                ((seen i).trace ++
                  [Event.DestroyFiber ((seen i).mem.jobSystem.fiberPool i).fiber])
                (seen i).mem
              trace := (seen i).trace ++
                [Event.DestroyFiber ((seen i).mem.jobSystem.fiberPool i).fiber] }) ∧
          Deinitialize E fuel w = .returned (seen 512) ∧
          (seen 512).trace = w.trace ++
            ((List.range k).flatMap (fun j =>
                [Event.readRunningWorkers (found j).mem.jobSystem.runningWorkers, Event.Yield]) ++
              Event.readRunningWorkers 0 ::
                (List.range 512).map (fun i =>
                  Event.DestroyFiber ((seen i).mem.jobSystem.fiberPool i).fiber)) ∧
          (E.KeepsHandles → ∀ i,
            ((seen i).mem.jobSystem.fiberPool i).fiber
              = (w.mem.jobSystem.fiberPool i).fiber))) := by
  have hstep : ∀ j, (waitRound E)^[j + 1] w =
      { mem := E.interfere
          (((waitRound E)^[j] w).trace ++
            [Event.readRunningWorkers ((waitRound E)^[j] w).mem.jobSystem.runningWorkers,
              Event.Yield])
          ((waitRound E)^[j] w).mem
        trace := ((waitRound E)^[j] w).trace ++
          [Event.readRunningWorkers ((waitRound E)^[j] w).mem.jobSystem.runningWorkers,
            Event.Yield] } := by
    intro j
    rw [Function.iterate_succ_apply']
    simp [waitRound, World.call, World.emit]
  by_cases hz : ∃ j, j < fuel ∧ ((waitRound E)^[j] w).mem.jobSystem.runningWorkers = 0
  · have hk := Nat.find_spec hz
    have hmin : ∀ j, j < Nat.find hz →
        ((waitRound E)^[j] w).mem.jobSystem.runningWorkers ≠ 0 := by
      intro j hj h0
      exact Nat.find_min hz hj ⟨lt_trans hj hk.1, h0⟩
    refine ⟨fun j => (waitRound E)^[j] w,
      fun i => destroyed E (((waitRound E)^[Nat.find hz] w).emit (.readRunningWorkers 0)) i,
      Nat.find hz, rfl, hstep, hmin, waitRound_trace E w _,
      Or.inr ⟨hk.1, hk.2, rfl, fun _ => rfl,
        Deinitialize_destroys E _ fuel w hk.1 hmin hk.2, ?_, ?_⟩⟩
    · rw [destroyed_trace]
      show (((waitRound E)^[Nat.find hz] w).trace ++ [Event.readRunningWorkers 0]) ++ _ = _
      rw [waitRound_trace E w, List.append_assoc, List.append_assoc]
      rfl
    · intro hE i
      rw [destroyed_handles E hE]
      exact waitRound_handles E hE w _ i
  · have hall : ∀ j, j < fuel → ((waitRound E)^[j] w).mem.jobSystem.runningWorkers ≠ 0 :=
      fun j hj h0 => hz ⟨j, hj, h0⟩
    exact ⟨fun j => (waitRound E)^[j] w, fun _ => w, fuel, rfl, hstep, hall,
      waitRound_trace E w _, Or.inl ⟨rfl, Deinitialize_waits E fuel w hall⟩⟩

/-- Witness of C5: two workers are live and one leaves during each call: the
reads give 2, 1 and 0, and `Deinitialize` returns after the 512 calls of
`DestroyFiber`, each on the handle 0 that the pool holds. -/
theorem Deinitialize_waits_then_destroys_witness :
    drainingEnv.KeepsHandles ∧
    ∃ w1, Deinitialize drainingEnv 3 (startWorld twoWorkers) = .returned w1 ∧
      w1.trace = [Event.readRunningWorkers 2, Event.Yield,
          Event.readRunningWorkers 1, Event.Yield] ++
        Event.readRunningWorkers 0 :: (List.range 512).map (fun _ => Event.DestroyFiber 0) := by
  have hE : drainingEnv.KeepsHandles := fun _ _ => ⟨rfl, fun _ => rfl⟩
  refine ⟨hE, ?_⟩
  obtain ⟨found, seen, k, h0, hF, hnz, htr, hcase⟩ :=
    Deinitialize_waits_then_destroys drainingEnv 3 (startWorld twoWorkers)
  have hF0 : found 1 = _ := hF 0
  rw [h0] at hF0
  have hF1 : found 2 = _ := hF 1
  rw [hF0] at hF1
  have hr0 : (found 0).mem.jobSystem.runningWorkers = 2 := by rw [h0]; rfl
  have hr1 : (found 1).mem.jobSystem.runningWorkers = 1 := by rw [hF0]; rfl
  have hr2 : (found 2).mem.jobSystem.runningWorkers = 0 := by rw [hF1]; rfl
  rcases hcase with ⟨hk, _⟩ | ⟨hk, hzero, _, _, hret, htrace, hkeep⟩
  · exact absurd hr2 (hnz 2 (by omega))
  · have hk2 : k = 2 := by
      interval_cases k
      · rw [hr0] at hzero; exact absurd hzero (by decide)
      · rw [hr1] at hzero; exact absurd hzero (by decide)
      · rfl
    subst hk2
    refine ⟨seen 512, hret, ?_⟩
    rw [htrace]
    have hmap : (List.range 512).map (fun i =>
          Event.DestroyFiber ((seen i).mem.jobSystem.fiberPool i).fiber)
        = (List.range 512).map (fun _ => Event.DestroyFiber 0) := by
      apply List.map_congr_left
      intro i _
      rw [hkeep hE i]
      rfl
    rw [hmap]
    generalize (List.range 512).map (fun _ => Event.DestroyFiber 0) = ds
    simp only [List.range_succ, List.range_zero, List.nil_append, List.flatMap_append,
      List.flatMap_cons, List.flatMap_nil, List.append_nil, hr0, hr1]
    rfl

/-- Alone and with a live worker count that is not zero, `Deinitialize` reads
and yields for as long as it is given fuel. -/
theorem Deinitialize_keeps_yielding (E : Env) (hE : E.Alone) (n : Nat) (hn : n ≠ 0) :
    ∀ (fuel : Nat) (w : World), w.mem.jobSystem.runningWorkers = n →
      ( Deinitialize E fuel w).isOutOfFuel = true ∧
      ( Deinitialize E fuel w).world.trace = w.trace ++
        (List.replicate fuel n).flatMap (fun n => [Event.readRunningWorkers n, Event.Yield]) := by
  intro fuel
  induction fuel with
  | zero => intro w _; exact ⟨rfl, by simp [ Deinitialize, Outcome.world]⟩
  | succ fuel ih =>
    intro w hw
    rw [Deinitialize_step_pos E fuel w (by rw [hw]; exact hn)]
    have hmem : (World.call E .Yield
        (w.emit (.readRunningWorkers w.mem.jobSystem.runningWorkers))).1.mem = w.mem := hE _ _
    obtain ⟨h1, h2⟩ := ih _ (by rw [hmem]; exact hw)
    refine ⟨h1, ?_⟩
    rw [h2, hw]
    simp [World.call, World.emit, List.replicate_succ]

/-- C3, at the failing input: the buffer holds 1 where `runningWorkers` lies,
no thread was started. `Initialize` leaves that field as it found it, and
`Deinitialize` then reads 1 and yields for as long as it is given fuel: it
does not return and no `DestroyFiber` is issued for any of the 512 fibers
that were created. -/
theorem Initialize_then_Deinitialize_spins :
    (Initialize quietEnv staleBuffer (startWorld zeroBuffer)).mem.jobSystem.runningWorkers = 1 ∧
    ∀ fuel,
      ( Deinitialize quietEnv fuel
        (Initialize quietEnv staleBuffer (startWorld zeroBuffer))).isOutOfFuel = true ∧
      ( Deinitialize quietEnv fuel
        (Initialize quietEnv staleBuffer (startWorld zeroBuffer))).isReturned = false ∧
      ( Deinitialize quietEnv fuel
        (Initialize quietEnv staleBuffer (startWorld zeroBuffer))).world.trace
        = (List.range 512).map (fun i => Event.CreateFiber .FiberThread i 32768) ++
          (List.replicate fuel 1).flatMap (fun n => [Event.readRunningWorkers n, Event.Yield]) ∧
      ∀ f, Event.DestroyFiber f ∉
        ( Deinitialize quietEnv fuel
          (Initialize quietEnv staleBuffer (startWorld zeroBuffer))).world.trace := by
  have hrw : (Initialize quietEnv staleBuffer (startWorld zeroBuffer)).mem.jobSystem.runningWorkers
      = 1 :=
    Initialize_keeps quietEnv quietEnv_alone (fun js => js.runningWorkers) (fun _ _ _ => rfl)
      staleBuffer (startWorld zeroBuffer)
  refine ⟨hrw, fun fuel => ?_⟩
  obtain ⟨h1, h2⟩ := Deinitialize_keeps_yielding quietEnv quietEnv_alone 1 (by decide) fuel _ hrw
  rw [Initialize_trace] at h2
  have h3 : ( Deinitialize quietEnv fuel
      (Initialize quietEnv staleBuffer (startWorld zeroBuffer))).world.trace
      = (List.range 512).map (fun i => Event.CreateFiber .FiberThread i 32768) ++
        (List.replicate fuel 1).flatMap (fun n => [Event.readRunningWorkers n, Event.Yield]) := by
    rw [h2]
    show ([] ++ _) ++ _ = _
    rw [List.nil_append]
  refine ⟨h1, ?_, h3, ?_⟩
  · cases hf : Deinitialize quietEnv fuel
        (Initialize quietEnv staleBuffer (startWorld zeroBuffer)) with
    | returned x => simp [hf, Outcome.isOutOfFuel] at h1
    | fault x => rfl
    | outOfFuel x => rfl
  · intro f hf
    rw [h3] at hf
    rcases List.mem_append.mp hf with hf | hf
    · obtain ⟨i, _, hi⟩ := List.mem_map.mp hf
      cases hi
    · obtain ⟨n, _, hn⟩ := List.mem_flatMap.mp hf
      simp at hn

/-- The companion of C3 for a buffer whose `runningWorkers` is zero: alone
(no `Startup`), `Initialize(buffer)` followed by `Deinitialize()` returns, the
live worker count is zero and every handle `CreateFiber` returned is handed
to `DestroyFiber` once, in the order of creation. -/
theorem Initialize_then_Deinitialize_clean (E : Env) (hE : E.Alone) (memory : JobSystem)
    (hzero : memory.runningWorkers = 0) (fuel : Nat) (w : World) :
    ∃ w1, Deinitialize E (fuel + 1) (Initialize E memory w) = .returned w1 ∧
      w1.mem.jobSystem.runningWorkers = 0 ∧
      w1.trace = w.trace ++
        ((List.range 512).map (fun i => Event.CreateFiber .FiberThread i 32768) ++
          Event.readRunningWorkers 0 ::
            (List.range 512).map (fun i => Event.DestroyFiber
              (E.ret (w.trace ++ (List.range (i + 1)).map
                (fun i => Event.CreateFiber .FiberThread i 32768))))) := by
  have hrw : (Initialize E memory w).mem.jobSystem.runningWorkers = 0 := by
    rw [← hzero]
    exact Initialize_keeps E hE (fun js => js.runningWorkers) (fun _ _ _ => rfl) memory w
  refine ⟨_, Deinitialize_step_zero E fuel _ hrw, ?_, ?_⟩
  · rw [destroyLoop_eq_foldl]
    rw [foldl_keeps (fun j w =>
      (World.call E (.DestroyFiber (w.mem.jobSystem.fiberPool j).fiber) w).1)
      (fun w => w.mem.jobSystem.runningWorkers)]
    · exact hrw
    · intro j x
      show (E.interfere _ x.mem).jobSystem.runningWorkers = _
      rw [hE]
  · rw [destroyLoop_eq_foldl, destroyLoop_trace E hE.keepsHandles, List.range_eq_range']
    show ((Initialize E memory w).trace ++ [Event.readRunningWorkers 0]) ++ _ = _
    rw [Initialize_trace, List.range_eq_range', List.append_assoc, List.append_assoc]
    congr 2
    rw [List.singleton_append]
    congr 1
    apply List.map_congr_left
    intro i hi
    have hlt : i < 512 := by
      have := (List.mem_range'_1.mp hi).2
      simpa [maxFibers] using this
    show Event.DestroyFiber ((Initialize E memory w).mem.jobSystem.fiberPool i).fiber = _
    rw [Initialize_handles E hE.keepsHandles memory w i hlt, List.range_eq_range']

end Rjob
